import Mathlib

/-!
Verification development for the discretization layer of pyMOR
(`pymor/discretizations/basic.py`): `DiscretizationBase`,
`StationaryDiscretization` and `InstationaryDiscretization`.

The Python classes are shallowly embedded: Python dicts become association
lists over `String` keys (keys unique, as in every Python dict), Python
`None` becomes `Option.none`, assertion failures and raised exceptions
become an `Option`/`Except` failure value of the embedded constructor or
method.  External collaborators (operators, time-steppers, estimators,
visualizers) are records whose behavioural methods are function fields;
`uid` models Python object identity, which is what `==` compares for these
objects.
-/

/-- A vector space as seen by the discretization layer: a space type tag
(`NumpyVectorSpace`, ...) together with its dimension. -/
structure VSpace where
  kind : String
  dim : Nat
deriving DecidableEq, Repr

/-- `NumpyVectorSpace(n)` from `pymor.vectorarrays.numpy`. -/
def NumpyVectorSpace (n : Nat) : VSpace :=
  { kind := "numpy", dim := n }

/-- A |VectorArray|: an ordered collection of vectors belonging to one space. -/
structure VecArr where
  space : VSpace
  data : List (List Int)
deriving DecidableEq, Repr

/-- A parameter value: a flat numeric array (a scalar is a length-1 array). -/
abbrev PVal := List Int

/-- A |Parameter|: a mapping from names to numeric arrays, as an association
list (Python dicts have unique keys). -/
abbrev Param := List (String × PVal)

/-- A parameter type: required parameter names with their sizes. -/
abbrev ParamType := List (String × Nat)

/-- Failure modes of the embedded Python code. -/
inductive PyError where
  /-- a failed `assert` -/
  | assertionError
  /-- attribute access on `None` or a missing attribute -/
  | attributeError
  /-- `mu` rejected by `parse_parameter` -/
  | parameterError
  /-- a numerical solver failure inside `apply_inverse` or a time-stepper -/
  | numericalError (msg : String)
  /-- `NotImplementedError` -/
  | notImplementedError (msg : String)
deriving DecidableEq, Repr

/-- An |Operator| as consumed by the discretization layer: source/range
spaces, linearity flag, its own parameter type, and the behavioural
capabilities used by `basic.py`.  `uid` models Python object identity. -/
structure Op where
  uid : Nat
  source : VSpace
  range : VSpace
  linear : Bool
  parameter_type : ParamType
  apply_inverse : VecArr → Param → Except PyError VecArr
  as_source_array : Param → VecArr
  as_range_array : Param → VecArr

/-- A time-stepper as consumed by `InstationaryDiscretization`: `nt = none`
models absence of the `nt` attribute (`hasattr(time_stepper, 'nt')` false);
`solve` is the stepping capability with the argument order
(operator, rhs, initial_data, mass, initial_time, end_time, mu, num_values). -/
structure TimeStepper where
  uid : Nat
  nt : Option Nat
  solve : Op → Option Op → VecArr → Option Op → Int → Int → Param → Option Nat →
    Except PyError (List VecArr)

/-- Modelled from the spec: `TimeStepper.with_(nt=v)` (the generic
reconfiguration of `pymor.algorithms.timestepping`, whose code is not in
`src/`) returns the time-stepper reconfigured to the new step count. -/
def TimeStepper.with_nt (ts : TimeStepper) (v : Nat) : TimeStepper :=
  { ts with nt := some v }

/-- An error estimator (opaque external collaborator). -/
structure ErrEstimator where
  uid : Nat
deriving DecidableEq, Repr

/-- A visualizer (opaque external collaborator). -/
structure Visualizer where
  uid : Nat
deriving DecidableEq, Repr

/-- A |ParameterSpace| (opaque; only stored and passed through). -/
structure ParameterSpace where
  uid : Nat
deriving DecidableEq, Repr

/-! ### Python-dict operations on association lists

Python dicts have unique keys; on unique-key association lists the
operations below implement exactly dict lookup and `m[k] = v` update
(update in place preserving position, append if the key is new). -/

/-- Python dict lookup `m[k]` / `m.get(k)`: value at the first matching key. -/
def lookup (m : List (String × α)) (k : String) : Option α :=
  (m.find? (fun p => p.1 == k)).map (fun p => p.2)

/-- Python dict update `m[k] = v` (and `dict(m, k=v)`): replaces the value at
the key in place, appends the binding if the key is absent. -/
def dictUpdate : List (String × α) → String → α → List (String × α)
  | [], k, v => [(k, v)]
  | p :: t, k, v => if p.1 = k then (k, v) :: t else p :: dictUpdate t k v

/-- Keys of a dict are pairwise distinct (true of every Python dict). -/
def keysNodup (m : List (String × α)) : Prop :=
  (m.map Prod.fst).Nodup

instance (m : List (String × α)) : Decidable (keysNodup m) := by
  unfold keysNodup; infer_instance

theorem lookup_nil (k : String) : lookup ([] : List (String × α)) k = none := rfl

theorem dictUpdate_nil (k : String) (v : α) :
    dictUpdate ([] : List (String × α)) k v = [(k, v)] := rfl

theorem dictUpdate_cons (p : String × α) (t : List (String × α)) (k : String) (v : α) :
    dictUpdate (p :: t) k v = if p.1 = k then (k, v) :: t else p :: dictUpdate t k v := rfl

theorem lookup_cons (p : String × α) (m : List (String × α)) (k : String) :
    lookup (p :: m) k = if p.1 = k then some p.2 else lookup m k := by
  unfold lookup
  by_cases h : p.1 = k
  · rw [List.find?_cons_of_pos _ (by simpa using h), if_pos h]
    rfl
  · rw [List.find?_cons_of_neg _ (by simpa using h), if_neg h]

theorem lookup_dictUpdate_self (m : List (String × α)) (k : String) (v : α) :
    lookup (dictUpdate m k v) k = some v := by
  induction m with
  | nil =>
    rw [dictUpdate_nil, lookup_cons, if_pos rfl]
  | cons p t ih =>
    rw [dictUpdate_cons]
    by_cases hp : p.1 = k
    · rw [if_pos hp, lookup_cons, if_pos rfl]
    · rw [if_neg hp, lookup_cons, if_neg hp]
      exact ih

theorem lookup_dictUpdate_ne (m : List (String × α)) (k k' : String) (v : α)
    (h : k' ≠ k) : lookup (dictUpdate m k v) k' = lookup m k' := by
  have hk : ¬(k = k') := fun hk => h hk.symm
  induction m with
  | nil =>
    rw [dictUpdate_nil, lookup_cons, if_neg hk, lookup_nil]
  | cons p t ih =>
    rw [dictUpdate_cons]
    by_cases hp : p.1 = k
    · rw [if_pos hp, lookup_cons, if_neg hk, lookup_cons, if_neg (hp ▸ hk)]
    · rw [if_neg hp, lookup_cons, lookup_cons]
      by_cases hpk : p.1 = k'
      · rw [if_pos hpk, if_pos hpk]
      · rw [if_neg hpk, if_neg hpk]
        exact ih

/-- Updating a key with the value it already holds is a no-op. -/
theorem dictUpdate_of_lookup_eq (m : List (String × α)) (k : String) (v : α)
    (h : lookup m k = some v) : dictUpdate m k v = m := by
  induction m with
  | nil => simp [lookup_nil] at h
  | cons p t ih =>
    rw [lookup_cons] at h
    rw [dictUpdate_cons]
    by_cases hp : p.1 = k
    · rw [if_pos hp] at h
      have hpv : p = (k, v) := by
        cases p with
        | mk a b =>
          simp only at hp
          simp only [Option.some.injEq] at h
          rw [hp, h]
      rw [if_pos hp, hpv]
    · rw [if_neg hp] at h
      rw [if_neg hp, ih h]

/-- Every entry of an updated dict is the new binding or an entry of the
original dict. -/
theorem mem_dictUpdate (m : List (String × α)) (k : String) (v : α)
    (q : String × α) (hq : q ∈ dictUpdate m k v) : q = (k, v) ∨ q ∈ m := by
  induction m with
  | nil =>
    rw [dictUpdate_nil] at hq
    left
    exact List.mem_singleton.1 hq
  | cons p t ih =>
    rw [dictUpdate_cons] at hq
    by_cases hp : p.1 = k
    · rw [if_pos hp] at hq
      rcases List.mem_cons.1 hq with h1 | h1
      · left; exact h1
      · right; exact List.mem_cons_of_mem p h1
    · rw [if_neg hp] at hq
      rcases List.mem_cons.1 hq with h1 | h1
      · right; exact h1 ▸ List.mem_cons_self p t
      · rcases ih h1 with h2 | h2
        · left; exact h2
        · right; exact List.mem_cons_of_mem p h2

theorem keysNodup_dictUpdate (m : List (String × α)) (k : String) (v : α)
    (hnd : keysNodup m) : keysNodup (dictUpdate m k v) := by
  induction m with
  | nil => simp [dictUpdate_nil, keysNodup]
  | cons p t ih =>
    unfold keysNodup at hnd ⊢
    simp only [List.map_cons, List.nodup_cons] at hnd
    rw [dictUpdate_cons]
    by_cases hp : p.1 = k
    · simp only [if_pos hp, List.map_cons, List.nodup_cons]
      exact ⟨hp ▸ hnd.1, hnd.2⟩
    · simp only [if_neg hp, List.map_cons, List.nodup_cons]
      constructor
      · intro hmem
        rcases List.mem_map.1 hmem with ⟨q, hq, hqk⟩
        rcases mem_dictUpdate t k v q hq with h1 | h1
        · exact hp (hqk ▸ h1 ▸ rfl)
        · exact hnd.1 (hqk ▸ List.mem_map_of_mem Prod.fst h1)
      · exact ih hnd.2

/-- Updating the same key twice keeps only the second value. -/
theorem dictUpdate_dictUpdate (m : List (String × α)) (k : String) (v v' : α) :
    dictUpdate (dictUpdate m k v) k v' = dictUpdate m k v' := by
  induction m with
  | nil =>
    rw [dictUpdate_nil, dictUpdate_cons, if_pos rfl, dictUpdate_nil]
  | cons p t ih =>
    rw [dictUpdate_cons]
    by_cases hp : p.1 = k
    · rw [if_pos hp, dictUpdate_cons, if_pos rfl, dictUpdate_cons, if_pos hp]
    · rw [if_neg hp, dictUpdate_cons, if_neg hp, ih, dictUpdate_cons, if_neg hp]

/-- Updates at a key seen through a lookup at any key. -/
theorem lookup_dictUpdate (m : List (String × α)) (k k' : String) (v : α) :
    lookup (dictUpdate m k v) k' = if k' = k then some v else lookup m k' := by
  by_cases h : k' = k
  · rw [if_pos h, h, lookup_dictUpdate_self]
  · rw [if_neg h, lookup_dictUpdate_ne m k k' v h]

/-! ### `DiscretizationBase.__init__` (basic.py lines 21-53) -/

/-- The special-operator keyword arguments of a constructor call
(`kwargs[on]`); `none` is Python `None`. -/
abbrev SpecialKwargs := String → Option Op

/-- The data `DiscretizationBase.__init__` stores on the instance:
the frozen operator dict, the special-operator attributes set via `setattr`,
the computed `linear` flag, products, estimator, visualizer, cache region,
name, and the `{k}_product` / `{k}_norm` attributes derived from products. -/
structure BaseData where
  operators : List (String × Option Op)
  specialAttrs : List (String × Option Op)
  linear : Bool
  products : List (String × Op)
  estimator : Option ErrEstimator
  visualizer : Option Visualizer
  cache_region : Option String
  name : Option String
  productAttrs : List (String × Op)
  normAttrs : List String

/-- Resolution of a special operator's final value (basic.py lines 33-35):
the keyword value if it is not `None`, else `operators.get(on)`. -/
def resolveSpecial (kwv : Option Op) (mem : Option (Option Op)) : Option Op :=
  match kwv with
  | some k => some k
  | none => mem.getD none

/-- The uniqueness assert of basic.py line 31:
`kwargs[on] is None or on not in operators or kwargs[on] == operators[on]`
(`==` on operator objects is object identity, modelled by `uid`). -/
def specialAssertOk (kwv : Option Op) (mem : Option (Option Op)) : Bool :=
  match kwv, mem with
  | none, _ => true
  | some _, none => true
  | some k, some (some o) => k.uid == o.uid
  | some _, some none => false

/-- The special-operator loop of `DiscretizationBase.__init__`
(basic.py lines 27-40): for each declared special name, assert it does not
collide with a pre-existing attribute, assert it is uniquely given, resolve
its value, set it as an attribute, and store it in the operator dict.
Returns the updated operator dict and the attributes set, or `none` when an
assertion fails. -/
def processSpecials (classAttrs : List String) (kwargs : SpecialKwargs) :
    List String → List (String × Option Op) →
    Option (List (String × Option Op) × List (String × Option Op))
  | [], ops => some (ops, [])
  | sn :: rest, ops =>
    if sn ∈ classAttrs then none
    else if specialAssertOk (kwargs sn) (lookup ops sn) then
      let op := resolveSpecial (kwargs sn) (lookup ops sn)
      match processSpecials classAttrs kwargs rest (dictUpdate ops sn op) with
      | none => none
      | some (ops2, attrs) => some (ops2, (sn, op) :: attrs)
    else none

/-- `DiscretizationBase.__init__` (basic.py lines 21-53).  `operators = none`
is the Python default `operators=None` (treated as `{}`); likewise for
`products`. -/
def baseInit (specials classAttrs : List String) (kwargs : SpecialKwargs)
    (operators : Option (List (String × Option Op)))
    (products : Option (List (String × Op)))
    (estimator : Option ErrEstimator) (visualizer : Option Visualizer)
    (cache_region : Option String) (name : Option String) : Option BaseData :=
  match processSpecials classAttrs kwargs specials (operators.getD []) with
  | none => none
  | some (ops2, sattrs) =>
    let prods := products.getD []
    some { operators := ops2
           specialAttrs := sattrs
           linear := ops2.all (fun p => match p.2 with
             | none => true
             | some o => o.linear)
           products := prods
           estimator := estimator
           visualizer := visualizer
           cache_region := cache_region
           name := name
           productAttrs := prods.map (fun kv => (kv.1 ++ "_product", kv.2))
           normAttrs := prods.map (fun kv => kv.1 ++ "_norm") }

/-- Reading a special-operator attribute from the stored attributes
(`getattr(self, on)`); after `__init__` every special attribute is present,
possibly with value `None`. -/
def getSAttr (attrs : List (String × Option Op)) (sn : String) : Option Op :=
  (lookup attrs sn).getD none

/-- Modelled from the spec: `build_parameter_type` (from
`pymor.parameters.base`, which is not in `src/`) derives the declared
parameter type by merging the parameter types of the constituent operators
(`None` operators are skipped); names in `provides` are supplied internally
by the discretization and hence not required from the caller. -/
def buildParameterType (ops : List (Option Op)) (provides : List String) : ParamType :=
  ((ops.filterMap id).foldl
      (fun acc o => o.parameter_type.foldl (fun a p => dictUpdate a p.1 p.2) acc) []).filter
    (fun p => !(provides.contains p.1))

/-- Modelled from the spec: `parse_parameter` (from `pymor.parameters.base`,
which is not in `src/`) validates `mu` against the declared parameter type,
failing if a required parameter is absent or has the wrong shape. -/
def parseParameter (pt : ParamType) (mu : Param) : Option Param :=
  if pt.all (fun p => match lookup mu p.1 with
      | some v => v.length == p.2
      | none => false)
  then some mu else none

/-- Modelled from the spec: `VectorOperator` (from
`pymor.operators.constructions`, which is not in `src/`) wraps a length-1
|VectorArray| as a constant vector-like |Operator|: linear, with
`source = NumpyVectorSpace 1` and `range` the array's space, yielding the
wrapped array as its range array for every parameter. -/
def VectorOperator (U : VecArr) : Op :=
  { uid := 0
    source := NumpyVectorSpace 1
    range := U.space
    linear := true
    parameter_type := []
    apply_inverse := fun _ _ => Except.error (PyError.notImplementedError "VectorOperator")
    as_source_array := fun _ => U
    as_range_array := fun _ => U }

/-! ### `StationaryDiscretization` (basic.py lines 94-163) -/

/-- `StationaryDiscretization.special_operators` (basic.py line 141). -/
def stationarySpecialOperators : List String := ["operator", "rhs"]

/-- Pre-existing attributes of a fresh `StationaryDiscretization` instance
against which the `hasattr` collision check of basic.py line 29 tests
(class attributes and methods; the declared special names are not among
them). -/
def stationaryClassAttrs : List String :=
  ["special_operators", "sid_ignore", "with_", "visualize", "estimate", "solve", "_solve"]

/-- A constructed `StationaryDiscretization` instance. -/
structure StationaryDiscretization where
  operator : Op
  rhs : Op
  operators : List (String × Option Op)
  products : List (String × Op)
  estimator : Option ErrEstimator
  visualizer : Option Visualizer
  cache_region : Option String
  name : Option String
  linear : Bool
  solution_space : VSpace
  parameter_type : ParamType
  parameter_space : Option ParameterSpace
  productAttrs : List (String × Op)
  normAttrs : List String

/-- The special-operator keywords of a `StationaryDiscretization`
constructor call. -/
def stationaryKwargs (operator rhs : Option Op) : SpecialKwargs :=
  fun sn => if sn = "operator" then operator else if sn = "rhs" then rhs else none

theorem stationaryKwargs_operator (o r : Option Op) :
    stationaryKwargs o r "operator" = o := rfl

theorem stationaryKwargs_rhs (o r : Option Op) :
    stationaryKwargs o r "rhs" = r := rfl

/-- `StationaryDiscretization.__init__` (basic.py lines 143-154): delegates
to `DiscretizationBase.__init__`, sets `solution_space = operator.source`
(an `AttributeError` if the resolved operator is `None`), builds the
parameter type from `operator` and `rhs`, and checks the space/linearity
asserts of lines 153-154.  Returns `none` when construction raises. -/
def StationaryDiscretization.init
    (operator : Option Op) (rhs : Option Op)
    (products : Option (List (String × Op)))
    (operators : Option (List (String × Option Op)))
    (parameter_space : Option ParameterSpace)
    (estimator : Option ErrEstimator) (visualizer : Option Visualizer)
    (cache_region : Option String) (name : Option String) :
    Option StationaryDiscretization :=
  match baseInit stationarySpecialOperators stationaryClassAttrs
      (stationaryKwargs operator rhs)
      operators products estimator visualizer cache_region name with
  | none => none
  | some b =>
    match getSAttr b.specialAttrs "operator", getSAttr b.specialAttrs "rhs" with
    | some op, some r =>
      if (op.source == op.range) && (op.range == r.source)
          && (r.source == op.source) && (r.range == NumpyVectorSpace 1) && r.linear then
        some { operator := op
               rhs := r
               operators := b.operators
               products := b.products
               estimator := b.estimator
               visualizer := b.visualizer
               cache_region := b.cache_region
               name := b.name
               linear := b.linear
               solution_space := op.source
               parameter_type := buildParameterType [some op, some r] []
               parameter_space := parameter_space
               productAttrs := b.productAttrs
               normAttrs := b.normAttrs }
      else none
    | _, _ => none

/-- `StationaryDiscretization._solve` (basic.py lines 156-163): parse `mu`,
then return `operator.apply_inverse(rhs.as_source_array(mu), mu=mu)`.
Failures of `apply_inverse` propagate unaltered in the `Except` value. -/
def StationaryDiscretization._solve (d : StationaryDiscretization) (mu : Param) :
    Except PyError VecArr :=
  match parseParameter d.parameter_type mu with
  | none => Except.error PyError.parameterError
  | some p => d.operator.apply_inverse (d.rhs.as_source_array p) p

/-- The overrides of a `with_` call on a `StationaryDiscretization`
(each field `none` when the keyword is not supplied; all fields are legal
`with_arguments`). -/
structure SWithArgs where
  operator : Option Op := none
  rhs : Option Op := none
  products : Option (List (String × Op)) := none
  operators : Option (List (String × Option Op)) := none
  parameter_space : Option (Option ParameterSpace) := none
  estimator : Option (Option ErrEstimator) := none
  visualizer : Option (Option Visualizer) := none
  cache_region : Option (Option String) := none
  name : Option (Option String) := none

/-- `DiscretizationBase.with_` (basic.py lines 55-68) for a
`StationaryDiscretization`: unless `operators` is overridden explicitly, the
operator dict passed down is the current dict updated with the current (or
overridden) special-operator attribute values; the special keyword slots are
cleared to `None` so the constructor re-resolves them from the merged dict.
The generic clone operation it delegates to (`with_` of the base interface
class, which is not in `src/`) is modelled from the spec: the constructor is
re-invoked with each argument taken from the overrides when given, else from
the current attribute value. -/
def StationaryDiscretization.with_ (d : StationaryDiscretization) (kw : SWithArgs) :
    Option StationaryDiscretization :=
  let mergedOps :=
    kw.operators.getD
      (dictUpdate (dictUpdate d.operators "operator" (some (kw.operator.getD d.operator)))
        "rhs" (some (kw.rhs.getD d.rhs)))
  StationaryDiscretization.init kw.operator kw.rhs
    (some (kw.products.getD d.products)) (some mergedOps)
    (kw.parameter_space.getD d.parameter_space)
    (kw.estimator.getD d.estimator) (kw.visualizer.getD d.visualizer)
    (kw.cache_region.getD d.cache_region) (kw.name.getD d.name)

/-! ### `InstationaryDiscretization` (basic.py lines 166-288) -/

/-- `InstationaryDiscretization.special_operators` (basic.py line 242). -/
def instationarySpecialOperators : List String :=
  ["operator", "mass", "rhs", "initial_data"]

/-- Pre-existing attributes of a fresh `InstationaryDiscretization` instance
for the `hasattr` collision check of basic.py line 29. -/
def instationaryClassAttrs : List String :=
  ["special_operators", "sid_ignore", "with_", "visualize", "estimate", "solve", "_solve"]

/-- The `initial_data` constructor argument: either a vector-like |Operator|
or a length-1 |VectorArray| (basic.py lines 248-249 wrap the latter in a
`VectorOperator`). -/
inductive InitialDataArg where
  | op (o : Op)
  | arr (U : VecArr)

/-- A constructed `InstationaryDiscretization` instance. -/
structure InstationaryDiscretization where
  T : Int
  initial_data : Op
  operator : Op
  rhs : Option Op
  mass : Option Op
  time_stepper : TimeStepper
  num_values : Option Nat
  operators : List (String × Option Op)
  products : List (String × Op)
  estimator : Option ErrEstimator
  visualizer : Option Visualizer
  cache_region : Option String
  name : Option String
  linear : Bool
  solution_space : VSpace
  parameter_type : ParamType
  parameter_space : Option ParameterSpace
  productAttrs : List (String × Op)
  normAttrs : List String

/-- The wrapping of the `initial_data` constructor argument
(basic.py lines 248-249): a raw |VectorArray| becomes a `VectorOperator`. -/
def wrapInitialData : Option InitialDataArg → Option Op
  | none => none
  | some (InitialDataArg.op o) => some o
  | some (InitialDataArg.arr U) => some (VectorOperator U)

/-- The special-operator keywords of an `InstationaryDiscretization`
constructor call. -/
def instationaryKwargs (operator mass rhs initial_data : Option Op) : SpecialKwargs :=
  fun sn =>
    if sn = "operator" then operator
    else if sn = "mass" then mass
    else if sn = "rhs" then rhs
    else if sn = "initial_data" then initial_data
    else none

theorem instationaryKwargs_operator (o m r i : Option Op) :
    instationaryKwargs o m r i "operator" = o := rfl

theorem instationaryKwargs_mass (o m r i : Option Op) :
    instationaryKwargs o m r i "mass" = m := rfl

theorem instationaryKwargs_rhs (o m r i : Option Op) :
    instationaryKwargs o m r i "rhs" = r := rfl

theorem instationaryKwargs_initial_data (o m r i : Option Op) :
    instationaryKwargs o m r i "initial_data" = i := rfl

/-- The `rhs` assert of basic.py lines 266-267: `rhs is None or rhs.linear
and rhs.source == operator.source and rhs.range == NumpyVectorSpace(1)`. -/
def rhsOkCheck (op : Op) : Option Op → Bool
  | none => true
  | some r => r.linear && (r.source == op.source) && (r.range == NumpyVectorSpace 1)

/-- The `mass` assert of basic.py lines 268-269: `mass is None or mass.linear
and mass.source == mass.range == operator.source`. -/
def massOkCheck (op : Op) : Option Op → Bool
  | none => true
  | some mm => mm.linear && (mm.source == mm.range) && (mm.range == op.source)

/-- `InstationaryDiscretization.__init__` (basic.py lines 244-269): wraps a
raw |VectorArray| initial datum in a `VectorOperator`, delegates to
`DiscretizationBase.__init__`, sets `T`, `solution_space = operator.source`,
`time_stepper`, `num_values`, builds the parameter type (with the implicit
`_t` parameter provided internally), and checks the asserts of
lines 263-269.  Returns `none` when construction raises. -/
def InstationaryDiscretization.init
    (T : Int) (initial_data : Option InitialDataArg)
    (operator : Option Op) (rhs : Option Op) (mass : Option Op)
    (time_stepper : Option TimeStepper) (num_values : Option Nat)
    (products : Option (List (String × Op)))
    (operators : Option (List (String × Option Op)))
    (parameter_space : Option ParameterSpace)
    (estimator : Option ErrEstimator) (visualizer : Option Visualizer)
    (cache_region : Option String) (name : Option String) :
    Option InstationaryDiscretization :=
  match baseInit instationarySpecialOperators instationaryClassAttrs
      (instationaryKwargs operator mass rhs (wrapInitialData initial_data))
      operators products estimator visualizer cache_region name with
  | none => none
  | some b =>
    match getSAttr b.specialAttrs "operator", getSAttr b.specialAttrs "initial_data" with
    | some op, some idata =>
      match time_stepper with
      | none => none
      | some ts =>
        if (idata.source == NumpyVectorSpace 1) && (op.source == op.range)
            && (op.range == idata.range)
            && rhsOkCheck op (getSAttr b.specialAttrs "rhs")
            && massOkCheck op (getSAttr b.specialAttrs "mass") then
          some { T := T
                 initial_data := idata
                 operator := op
                 rhs := getSAttr b.specialAttrs "rhs"
                 mass := getSAttr b.specialAttrs "mass"
                 time_stepper := ts
                 num_values := num_values
                 operators := b.operators
                 products := b.products
                 estimator := b.estimator
                 visualizer := b.visualizer
                 cache_region := b.cache_region
                 name := b.name
                 linear := b.linear
                 solution_space := op.source
                 parameter_type := buildParameterType
                   [some idata, some op, getSAttr b.specialAttrs "rhs",
                     getSAttr b.specialAttrs "mass"] ["_t"]
                 parameter_space := parameter_space
                 productAttrs := b.productAttrs
                 normAttrs := b.normAttrs }
        else none
    | _, _ => none

/-- `InstationaryDiscretization._solve` (basic.py lines 278-288): parse `mu`,
copy it, set the copy's `_t` entry to the scalar 0, evaluate
`U0 = initial_data.as_range_array(mu)` on the copy, and call
`time_stepper.solve(operator, rhs, U0, mass, initial_time=0, end_time=T,
mu, num_values)` with the copy. -/
def InstationaryDiscretization._solve (d : InstationaryDiscretization) (mu : Param) :
    Except PyError (List VecArr) :=
  match parseParameter d.parameter_type mu with
  | none => Except.error PyError.parameterError
  | some p =>
    let p2 := dictUpdate p "_t" ([0] : PVal)
    d.time_stepper.solve d.operator d.rhs (d.initial_data.as_range_array p2) d.mass
      0 d.T p2 d.num_values

/-- The overrides of a `with_` call on an `InstationaryDiscretization`
(each field `none` when the keyword is not supplied).  `time_stepper_nt` is a
legal `with_` argument only when the current time-stepper exposes an `nt`
attribute (basic.py lines 260-261). -/
structure IWithArgs where
  T : Option Int := none
  initial_data : Option Op := none
  operator : Option Op := none
  rhs : Option Op := none
  mass : Option Op := none
  time_stepper : Option TimeStepper := none
  time_stepper_nt : Option Nat := none
  num_values : Option (Option Nat) := none
  products : Option (List (String × Op)) := none
  operators : Option (List (String × Option Op)) := none
  parameter_space : Option (Option ParameterSpace) := none
  estimator : Option (Option ErrEstimator) := none
  visualizer : Option (Option Visualizer) := none
  cache_region : Option (Option String) := none
  name : Option (Option String) := none

/-- `InstationaryDiscretization.with_` (basic.py lines 271-276) composed with
`DiscretizationBase.with_` (lines 55-68): `time_stepper_nt` is rejected when
the time-stepper has no `nt` attribute (it is then not a legal
`with_` argument), supplying both `time_stepper` and `time_stepper_nt`
fails the assert of line 273, and a sole `time_stepper_nt=v` is translated
into `time_stepper = time_stepper.with_(nt=v)`.  The generic clone operation
(not in `src/`) is modelled from the spec as for the stationary class. -/
def InstationaryDiscretization.with_ (d : InstationaryDiscretization) (kw : IWithArgs) :
    Option InstationaryDiscretization :=
  if kw.time_stepper_nt.isSome && !d.time_stepper.nt.isSome then none
  else if kw.time_stepper_nt.isSome && kw.time_stepper.isSome then none
  else
    let kwts : Option TimeStepper :=
      match kw.time_stepper_nt with
      | some v => some (d.time_stepper.with_nt v)
      | none => kw.time_stepper
    let mergedOps :=
      kw.operators.getD
        (dictUpdate
          (dictUpdate
            (dictUpdate
              (dictUpdate d.operators "operator" (some (kw.operator.getD d.operator)))
              "mass" (match kw.mass with
                | some mm => some mm
                | none => d.mass))
            "rhs" (match kw.rhs with
              | some r => some r
              | none => d.rhs))
          "initial_data" (some (kw.initial_data.getD d.initial_data)))
    InstationaryDiscretization.init (kw.T.getD d.T)
      (kw.initial_data.map InitialDataArg.op)
      kw.operator kw.rhs kw.mass
      (some (kwts.getD d.time_stepper))
      (kw.num_values.getD d.num_values)
      (some (kw.products.getD d.products))
      (some mergedOps)
      (kw.parameter_space.getD d.parameter_space)
      (kw.estimator.getD d.estimator) (kw.visualizer.getD d.visualizer)
      (kw.cache_region.getD d.cache_region) (kw.name.getD d.name)

/-! ### Generic facts about the special-operator loop -/

theorem processSpecials_nil (classAttrs : List String) (kwargs : SpecialKwargs)
    (ops : List (String × Option Op)) :
    processSpecials classAttrs kwargs [] ops = some (ops, []) := rfl

theorem processSpecials_cons (classAttrs : List String) (kwargs : SpecialKwargs)
    (sn : String) (rest : List String) (ops : List (String × Option Op)) :
    processSpecials classAttrs kwargs (sn :: rest) ops =
      if sn ∈ classAttrs then none
      else if specialAssertOk (kwargs sn) (lookup ops sn) then
        match processSpecials classAttrs kwargs rest
            (dictUpdate ops sn (resolveSpecial (kwargs sn) (lookup ops sn))) with
        | none => none
        | some (ops2, attrs) => some (ops2, (sn, resolveSpecial (kwargs sn) (lookup ops sn)) :: attrs)
      else none := rfl

/-- The loop never touches keys outside the list of special names. -/
theorem processSpecials_lookup_not_mem (classAttrs : List String)
    (kwargs : SpecialKwargs) (specials : List String)
    (ops ops2 sattrs : List (String × Option Op))
    (h : processSpecials classAttrs kwargs specials ops = some (ops2, sattrs))
    (sn : String) (hsn : sn ∉ specials) :
    lookup ops2 sn = lookup ops sn := by
  induction specials generalizing ops sattrs with
  | nil =>
    rw [processSpecials_nil] at h
    simp only [Option.some.injEq, Prod.mk.injEq] at h
    rw [h.1]
  | cons hd rest ih =>
    rw [processSpecials_cons] at h
    by_cases hcls : hd ∈ classAttrs
    · rw [if_pos hcls] at h; exact absurd h (by simp)
    · rw [if_neg hcls] at h
      by_cases hok : specialAssertOk (kwargs hd) (lookup ops hd) = true
      · rw [if_pos hok] at h
        rcases hrec : processSpecials classAttrs kwargs rest
            (dictUpdate ops hd (resolveSpecial (kwargs hd) (lookup ops hd))) with _ | ⟨ops3, attrs3⟩
        · rw [hrec] at h; exact absurd h (by simp)
        · rw [hrec] at h
          simp only [Option.some.injEq, Prod.mk.injEq] at h
          have hne : sn ∉ rest := fun hmem => hsn (List.mem_cons_of_mem hd hmem)
          have hhd : sn ≠ hd := fun he => hsn (he ▸ List.mem_cons_self hd rest)
          rw [h.1] at hrec
          rw [ih _ _ hrec hne, lookup_dictUpdate_ne _ _ _ _ hhd]
      · rw [if_neg hok] at h; exact absurd h (by simp)

/-- After the loop, for every declared special name the operator dict and the
attribute set agree and both hold the resolved value (keyword if given, else
the incoming dict entry, else `None`). -/
theorem processSpecials_lookup_mem (classAttrs : List String)
    (kwargs : SpecialKwargs) (specials : List String)
    (ops ops2 sattrs : List (String × Option Op))
    (hnd : specials.Nodup)
    (h : processSpecials classAttrs kwargs specials ops = some (ops2, sattrs)) :
    ∀ sn ∈ specials,
      lookup ops2 sn = some (resolveSpecial (kwargs sn) (lookup ops sn)) ∧
      lookup sattrs sn = some (resolveSpecial (kwargs sn) (lookup ops sn)) := by
  induction specials generalizing ops sattrs with
  | nil => intro sn hsn; exact absurd hsn (List.not_mem_nil sn)
  | cons hd rest ih =>
    rw [processSpecials_cons] at h
    by_cases hcls : hd ∈ classAttrs
    · rw [if_pos hcls] at h; exact absurd h (by simp)
    · rw [if_neg hcls] at h
      by_cases hok : specialAssertOk (kwargs hd) (lookup ops hd) = true
      · rw [if_pos hok] at h
        rcases hrec : processSpecials classAttrs kwargs rest
            (dictUpdate ops hd (resolveSpecial (kwargs hd) (lookup ops hd))) with _ | ⟨ops3, attrs3⟩
        · rw [hrec] at h; exact absurd h (by simp)
        · rw [hrec] at h
          simp only [Option.some.injEq, Prod.mk.injEq] at h
          rcases h with ⟨hops, hattrs⟩
          subst hops
          rcases List.nodup_cons.1 hnd with ⟨hhd, hndr⟩
          intro sn hsn
          rcases List.mem_cons.1 hsn with he | hmem
          · subst he
            constructor
            · rw [processSpecials_lookup_not_mem _ _ _ _ _ _ hrec sn hhd,
                lookup_dictUpdate_self]
            · rw [← hattrs, lookup_cons, if_pos rfl]
          · have hne : sn ≠ hd := fun he => hhd (he ▸ hmem)
            have := ih _ _ hndr hrec sn hmem
            rw [lookup_dictUpdate_ne _ _ _ _ hne] at this
            refine ⟨this.1, ?_⟩
            rw [← hattrs, lookup_cons, if_neg (fun he => hne he.symm)]
            exact this.2
      · rw [if_neg hok] at h
        exact absurd h (by simp)

/-- A special name colliding with a pre-existing attribute makes the loop
(and hence construction) fail. -/
theorem processSpecials_collision (classAttrs : List String)
    (kwargs : SpecialKwargs) (specials : List String) (sn : String)
    (h1 : sn ∈ specials) (h2 : sn ∈ classAttrs)
    (ops : List (String × Option Op)) :
    processSpecials classAttrs kwargs specials ops = none := by
  induction specials generalizing ops with
  | nil => exact absurd h1 (List.not_mem_nil sn)
  | cons hd rest ih =>
    rw [processSpecials_cons]
    by_cases hcls : hd ∈ classAttrs
    · rw [if_pos hcls]
    · rw [if_neg hcls]
      have hmem : sn ∈ rest := by
        rcases List.mem_cons.1 h1 with he | hmem
        · exact absurd (he ▸ h2) hcls
        · exact hmem
      by_cases hok : specialAssertOk (kwargs hd) (lookup ops hd) = true
      · rw [if_pos hok, ih hmem _]
      · rw [if_neg hok]

/-- When no special keyword is supplied and every special name already has an
entry in the operator dict (and none collides), the loop returns the dict
unchanged and sets each attribute to the dict entry. -/
theorem processSpecials_id (classAttrs : List String) (kwargs : SpecialKwargs)
    (specials : List String) (ops : List (String × Option Op))
    (hkw : ∀ sn ∈ specials, kwargs sn = none)
    (hcls : ∀ sn ∈ specials, sn ∉ classAttrs)
    (hmem : ∀ sn ∈ specials, (lookup ops sn).isSome) :
    processSpecials classAttrs kwargs specials ops =
      some (ops, specials.map (fun sn => (sn, (lookup ops sn).getD none))) := by
  induction specials with
  | nil => rw [processSpecials_nil]; rfl
  | cons hd rest ih =>
    rw [processSpecials_cons,
      if_neg (hcls hd (List.mem_cons_self hd rest)),
      hkw hd (List.mem_cons_self hd rest)]
    have hok : specialAssertOk none (lookup ops hd) = true := rfl
    rw [if_pos hok]
    rcases hv : lookup ops hd with _ | v
    · exact absurd (hv ▸ hmem hd (List.mem_cons_self hd rest)) (by simp)
    · have hres : resolveSpecial none (some v) = v := rfl
      rw [hres, dictUpdate_of_lookup_eq _ _ _ hv,
        ih (fun sn hs => hkw sn (List.mem_cons_of_mem hd hs))
          (fun sn hs => hcls sn (List.mem_cons_of_mem hd hs))
          (fun sn hs => hmem sn (List.mem_cons_of_mem hd hs))]
      simp [List.map_cons, hv]

/-! ### Facts about `baseInit` -/

theorem string_append_right_cancel (a b s : String) (h : a ++ s = b ++ s) : a = b := by
  apply String.ext
  have hd := congrArg String.data h
  rw [String.data_append, String.data_append] at hd
  exact List.append_cancel_right hd

/-- Appending a fixed suffix to every key preserves lookups (keys unique). -/
theorem lookup_map_append_suffix (pr : List (String × Op)) (s k : String) (v : Op)
    (hnd : keysNodup pr) (hmem : (k, v) ∈ pr) :
    lookup (pr.map (fun kv => (kv.1 ++ s, kv.2))) (k ++ s) = some v := by
  induction pr with
  | nil => cases hmem
  | cons p t ih =>
    rw [List.map_cons, lookup_cons]
    unfold keysNodup at hnd
    simp only [List.map_cons, List.nodup_cons] at hnd
    rcases List.mem_cons.1 hmem with he | hmem'
    · rw [← he]
      rw [if_pos rfl]
    · have hpk : p.1 ≠ k := by
        intro hpk
        exact hnd.1 (hpk ▸ List.mem_map_of_mem Prod.fst hmem')
      rw [if_neg (fun hc => hpk (string_append_right_cancel _ _ _ hc))]
      exact ih hnd.2 hmem'

/-- Inversion of a successful `DiscretizationBase.__init__`. -/
theorem baseInit_some (specials classAttrs : List String) (kwargs : SpecialKwargs)
    (operators : Option (List (String × Option Op)))
    (products : Option (List (String × Op)))
    (estimator : Option ErrEstimator) (visualizer : Option Visualizer)
    (cache_region : Option String) (name : Option String) (b : BaseData)
    (h : baseInit specials classAttrs kwargs operators products estimator
      visualizer cache_region name = some b) :
    processSpecials classAttrs kwargs specials (operators.getD [])
        = some (b.operators, b.specialAttrs) ∧
      b.linear = b.operators.all (fun p => match p.2 with
        | none => true
        | some o => o.linear) ∧
      b.products = products.getD [] ∧
      b.estimator = estimator ∧ b.visualizer = visualizer ∧
      b.cache_region = cache_region ∧ b.name = name ∧
      b.productAttrs = (products.getD []).map (fun kv => (kv.1 ++ "_product", kv.2)) ∧
      b.normAttrs = (products.getD []).map (fun kv => kv.1 ++ "_norm") := by
  unfold baseInit at h
  rcases hps : processSpecials classAttrs kwargs specials (operators.getD [])
    with _ | ⟨ops2, sattrs⟩
  · rw [hps] at h
    exact absurd h (by simp)
  · rw [hps] at h
    simp only [Option.some.injEq] at h
    subst h
    exact ⟨rfl, rfl, rfl, rfl, rfl, rfl, rfl, rfl, rfl⟩

/-! ### Shared concrete objects for the closed instantiations -/

/-- A concrete 2-dimensional solution space. -/
def exSpace : VSpace := NumpyVectorSpace 2

/-- A concrete linear operator on `exSpace` (acts as the identity). -/
def exOp : Op :=
  { uid := 1
    source := exSpace
    range := exSpace
    linear := true
    parameter_type := []
    apply_inverse := fun v _ => Except.ok v
    as_source_array := fun _ => { space := exSpace, data := [[1, 2]] }
    as_range_array := fun _ => { space := exSpace, data := [[1, 2]] } }

/-- A concrete linear functional on `exSpace`. -/
def exRhs : Op :=
  { uid := 2
    source := exSpace
    range := NumpyVectorSpace 1
    linear := true
    parameter_type := []
    apply_inverse := fun v _ => Except.ok v
    as_source_array := fun _ => { space := exSpace, data := [[3, 4]] }
    as_range_array := fun _ => { space := NumpyVectorSpace 1, data := [[5]] } }

/-- Constructor keywords supplying only `operator` (and no `rhs`). -/
def exKwargs : SpecialKwargs :=
  fun sn => if sn = "operator" then some exOp else none

/-- The instance data produced by `baseInit` from `exKwargs` with one
product. -/
def exBaseData : BaseData :=
  { operators := [("operator", some exOp), ("rhs", none)]
    specialAttrs := [("operator", some exOp), ("rhs", none)]
    linear := true
    products := [("h1", exOp)]
    estimator := none
    visualizer := none
    cache_region := none
    name := none
    productAttrs := [("h1_product", exOp)]
    normAttrs := ["h1_norm"] }

/-! ### Claims about `DiscretizationBase.__init__` -/

/-- C9: after construction of any discretization, the operator dict contains
a key for every declared special-operator name, holding the resolved value:
the keyword value when one was given (so a special supplied only as a
constructor keyword is inserted into the dict), else the incoming dict
entry, else `None` — so the dict is never missing a declared special name. -/
theorem spec_C9 (specials classAttrs : List String) (kwargs : SpecialKwargs)
    (operators : Option (List (String × Option Op)))
    (products : Option (List (String × Op)))
    (estimator : Option ErrEstimator) (visualizer : Option Visualizer)
    (cache_region : Option String) (name : Option String) (b : BaseData)
    (hnd : specials.Nodup)
    (h : baseInit specials classAttrs kwargs operators products estimator
      visualizer cache_region name = some b)
    (sn : String) (hsn : sn ∈ specials) :
    lookup b.operators sn
      = some (resolveSpecial (kwargs sn) (lookup (operators.getD []) sn)) :=
  (processSpecials_lookup_mem _ _ _ _ _ _ hnd
    (baseInit_some _ _ _ _ _ _ _ _ _ _ h).1 sn hsn).1

/-- Closed instantiation of `spec_C9`: `rhs` was supplied neither as a
keyword nor in the dict, yet the constructed dict has a `rhs` key (with
value `None`). -/
theorem spec_C9_witness :
    baseInit stationarySpecialOperators stationaryClassAttrs exKwargs none
        (some [("h1", exOp)]) none none none none = some exBaseData ∧
      lookup exBaseData.operators "rhs"
        = some (resolveSpecial (exKwargs "rhs")
            (lookup ((none : Option (List (String × Option Op))).getD []) "rhs")) :=
  ⟨rfl,
   spec_C9 stationarySpecialOperators stationaryClassAttrs exKwargs none
     (some [("h1", exOp)]) none none none none exBaseData (by decide) rfl
     "rhs" (by decide)⟩

/-- C5: for every discretization produced by construction (and hence by any
`with_` call, which delegates to the constructor), the operator dict and the
like-named attribute agree on every declared special-operator name; and
construction fails whenever a declared special name collides with a
pre-existing attribute. -/
theorem spec_C5 :
    (∀ (specials classAttrs : List String) (kwargs : SpecialKwargs)
        (operators : Option (List (String × Option Op)))
        (products : Option (List (String × Op)))
        (estimator : Option ErrEstimator) (visualizer : Option Visualizer)
        (cache_region : Option String) (name : Option String) (b : BaseData),
      specials.Nodup →
      baseInit specials classAttrs kwargs operators products estimator
        visualizer cache_region name = some b →
      ∀ sn ∈ specials, lookup b.operators sn = lookup b.specialAttrs sn) ∧
    (∀ (specials classAttrs : List String) (kwargs : SpecialKwargs)
        (operators : Option (List (String × Option Op)))
        (products : Option (List (String × Op)))
        (estimator : Option ErrEstimator) (visualizer : Option Visualizer)
        (cache_region : Option String) (name : Option String) (sn : String),
      sn ∈ specials → sn ∈ classAttrs →
      baseInit specials classAttrs kwargs operators products estimator
        visualizer cache_region name = none) := by
  constructor
  · intro specials classAttrs kwargs operators products estimator visualizer
      cache_region name b hnd h sn hsn
    have hm := processSpecials_lookup_mem _ _ _ _ _ _ hnd
      (baseInit_some _ _ _ _ _ _ _ _ _ _ h).1 sn hsn
    rw [hm.1, hm.2]
  · intro specials classAttrs kwargs operators products estimator visualizer
      cache_region name sn h1 h2
    unfold baseInit
    rw [processSpecials_collision classAttrs kwargs specials sn h1 h2]

/-- Closed instantiation of `spec_C5`: dict/attribute agreement at
`operator` in a concrete construction, and failure of a construction whose
special name `visualize` collides with the like-named method. -/
theorem spec_C5_witness :
    lookup exBaseData.operators "operator" = lookup exBaseData.specialAttrs "operator" ∧
      baseInit ["visualize"] stationaryClassAttrs exKwargs none none
        none none none none = none :=
  ⟨spec_C5.1 stationarySpecialOperators stationaryClassAttrs exKwargs none
     (some [("h1", exOp)]) none none none none exBaseData (by decide) rfl
     "operator" (by decide),
   spec_C5.2 ["visualize"] stationaryClassAttrs exKwargs none none
     none none none none "visualize" (by decide) (by decide)⟩

/-- C6: the `linear` flag of a constructed discretization is true exactly
when every operator present in the operator dict is linear — an entry whose
value is `None` counts as linear, so a discretization whose every present
operator is linear has `linear = true` no matter which special operators
are absent. -/
theorem spec_C6 (specials classAttrs : List String) (kwargs : SpecialKwargs)
    (operators : Option (List (String × Option Op)))
    (products : Option (List (String × Op)))
    (estimator : Option ErrEstimator) (visualizer : Option Visualizer)
    (cache_region : Option String) (name : Option String) (b : BaseData)
    (h : baseInit specials classAttrs kwargs operators products estimator
      visualizer cache_region name = some b) :
    b.linear = true ↔
      ∀ p ∈ b.operators, ∀ o : Op, p.2 = some o → o.linear = true := by
  rcases baseInit_some _ _ _ _ _ _ _ _ _ _ h with ⟨_, hlin, _⟩
  rw [hlin, List.all_eq_true]
  constructor
  · intro hall p hp o ho
    have hd := hall p hp
    rw [ho] at hd
    exact hd
  · intro hall p hp
    rcases hv : p.2 with _ | o
    · simp only [hv]
    · have hd := hall p hp o hv
      simp only [hv, hd]

/-- Closed instantiation of `spec_C6`: in the concrete construction the only
present operator is linear, the `rhs` slot is absent (`None`), and the
`linear` flag is true. -/
theorem spec_C6_witness : exBaseData.linear = true :=
  (spec_C6 stationarySpecialOperators stationaryClassAttrs exKwargs none
      (some [("h1", exOp)]) none none none none exBaseData rfl).mpr (by
    intro p hp o ho
    cases hp with
    | head =>
      injection ho with h2
      rw [← h2]
      rfl
    | tail _ hp2 =>
      cases hp2 with
      | head => exact absurd ho (by simp)
      | tail _ hp3 => cases hp3)

/-- C10: for every entry `(k, v)` of the products dict, construction exposes
both the derived norm accessor named `k_norm` and the product operator
itself as an attribute named `k_product`, the latter holding the very
operator `v` stored in the products dict. -/
theorem spec_C10 (specials classAttrs : List String) (kwargs : SpecialKwargs)
    (operators : Option (List (String × Option Op)))
    (pr : List (String × Op))
    (estimator : Option ErrEstimator) (visualizer : Option Visualizer)
    (cache_region : Option String) (name : Option String) (b : BaseData)
    (h : baseInit specials classAttrs kwargs operators (some pr) estimator
      visualizer cache_region name = some b)
    (hnd : keysNodup pr) (k : String) (v : Op) (hmem : (k, v) ∈ pr) :
    lookup b.productAttrs (k ++ "_product") = some v ∧
      (k ++ "_norm") ∈ b.normAttrs := by
  rcases baseInit_some _ _ _ _ _ _ _ _ _ _ h with
    ⟨_, _, _, _, _, _, _, hprod, hnorm⟩
  constructor
  · rw [hprod]
    exact lookup_map_append_suffix pr _ k v hnd hmem
  · rw [hnorm]
    exact List.mem_map.2 ⟨(k, v), hmem, rfl⟩

/-- Closed instantiation of `spec_C10` at the product `("h1", exOp)`. -/
theorem spec_C10_witness :
    lookup exBaseData.productAttrs ("h1" ++ "_product") = some exOp ∧
      ("h1" ++ "_norm") ∈ exBaseData.normAttrs :=
  spec_C10 stationarySpecialOperators stationaryClassAttrs exKwargs none
    [("h1", exOp)] none none none none exBaseData rfl (by decide)
    "h1" exOp (List.mem_singleton.2 rfl)

/-! ### Claims about `_solve` -/

/-- A concrete vector-like operator producing initial data on `exSpace`. -/
def exInit : Op :=
  { uid := 3
    source := NumpyVectorSpace 1
    range := exSpace
    linear := true
    parameter_type := []
    apply_inverse := fun v _ => Except.ok v
    as_source_array := fun _ => { space := NumpyVectorSpace 1, data := [[1]] }
    as_range_array := fun _ => { space := exSpace, data := [[0, 0]] } }

/-- A concrete time-stepper exposing a step count `nt`. -/
def exTS : TimeStepper :=
  { uid := 7
    nt := some 10
    solve := fun _ _ U0 _ _ _ _ _ => Except.ok [U0] }

/-- The empty parameter (valid for an empty declared parameter type). -/
def exMu : Param := []

/-- A concrete `StationaryDiscretization` instance. -/
def exSDisc : StationaryDiscretization :=
  { operator := exOp
    rhs := exRhs
    operators := [("operator", some exOp), ("rhs", some exRhs)]
    products := []
    estimator := none
    visualizer := none
    cache_region := none
    name := none
    linear := true
    solution_space := exSpace
    parameter_type := []
    parameter_space := none
    productAttrs := []
    normAttrs := [] }

/-- A concrete `InstationaryDiscretization` instance. -/
def exIDisc : InstationaryDiscretization :=
  { T := 1
    initial_data := exInit
    operator := exOp
    rhs := none
    mass := none
    time_stepper := exTS
    num_values := none
    operators := [("operator", some exOp), ("mass", none), ("rhs", none),
      ("initial_data", some exInit)]
    products := []
    estimator := none
    visualizer := none
    cache_region := none
    name := none
    linear := true
    solution_space := exSpace
    parameter_type := []
    parameter_space := none
    productAttrs := []
    normAttrs := [] }

/-- C1: for every `StationaryDiscretization` and every parameter accepted by
the declared parameter type, `_solve(mu)` first parses `mu` and then returns
exactly `operator.apply_inverse(rhs.as_source_array(mu), mu)`; the equality
is of `Except` values, so a failure inside `apply_inverse` propagates to the
caller unaltered. -/
theorem spec_C1 (d : StationaryDiscretization) (mu p : Param)
    (h : parseParameter d.parameter_type mu = some p) :
    d._solve mu = d.operator.apply_inverse (d.rhs.as_source_array p) p := by
  unfold StationaryDiscretization._solve
  rw [h]

/-- Closed instantiation of `spec_C1` on a concrete discretization and the
empty parameter. -/
theorem spec_C1_witness :
    parseParameter exSDisc.parameter_type exMu = some exMu ∧
      exSDisc._solve exMu
        = exSDisc.operator.apply_inverse (exSDisc.rhs.as_source_array exMu) exMu :=
  ⟨rfl, spec_C1 exSDisc exMu exMu rfl⟩

/-- C2: for every `InstationaryDiscretization` and every accepted parameter,
`_solve(mu)` works on a copy of the parsed parameter (the embedding is pure,
so the caller's `mu` is untouched; the copy agrees with the parsed parameter
everywhere except `_t`), sets the copy's `_t` entry to the scalar 0,
computes `U0 = initial_data.as_range_array` on the copy, and returns exactly
`time_stepper.solve(operator, rhs, U0, mass, initial_time=0, end_time=T,
mu=copy, num_values)`. -/
theorem spec_C2 (d : InstationaryDiscretization) (mu p : Param)
    (h : parseParameter d.parameter_type mu = some p) :
    d._solve mu
        = d.time_stepper.solve d.operator d.rhs
            (d.initial_data.as_range_array (dictUpdate p "_t" [0])) d.mass
            0 d.T (dictUpdate p "_t" [0]) d.num_values ∧
      lookup (dictUpdate p "_t" [0]) "_t" = some [0] ∧
      ∀ k, k ≠ "_t" → lookup (dictUpdate p "_t" [0]) k = lookup p k := by
  refine ⟨?_, lookup_dictUpdate_self p "_t" [0],
    fun k hk => lookup_dictUpdate_ne p "_t" k [0] hk⟩
  unfold InstationaryDiscretization._solve
  rw [h]

/-- Closed instantiation of `spec_C2` on a concrete instationary
discretization and the empty parameter. -/
theorem spec_C2_witness :
    parseParameter exIDisc.parameter_type exMu = some exMu ∧
      exIDisc._solve exMu
        = exIDisc.time_stepper.solve exIDisc.operator exIDisc.rhs
            (exIDisc.initial_data.as_range_array (dictUpdate exMu "_t" [0]))
            exIDisc.mass 0 exIDisc.T (dictUpdate exMu "_t" [0]) exIDisc.num_values :=
  ⟨rfl, (spec_C2 exIDisc exMu exMu rfl).1⟩

/-! ### Claim C3: construction succeeds iff the invariants hold -/

/-- C3: constructing a `StationaryDiscretization` from `(operator, rhs)`
(with all remaining constructor arguments at their defaults) succeeds iff
the space/linearity invariants hold — `operator.source == operator.range ==
rhs.source`, `rhs.range` is the 1-dimensional space and `rhs` is linear;
on success the instance satisfies `solution_space = operator.source`, and on
any violation construction fails (returns `none`), never yielding an
instance. -/
theorem spec_C3 (op r : Op) :
    ((∃ d, StationaryDiscretization.init (some op) (some r)
        none none none none none none none = some d)
      ↔ (op.source = op.range ∧ op.range = r.source
          ∧ r.range = NumpyVectorSpace 1 ∧ r.linear = true)) ∧
    (∀ d, StationaryDiscretization.init (some op) (some r)
        none none none none none none none = some d →
      d.solution_space = op.source) := by
  have hred : StationaryDiscretization.init (some op) (some r)
      none none none none none none none
      = if (op.source == op.range) && (op.range == r.source)
          && (r.source == op.source) && (r.range == NumpyVectorSpace 1) && r.linear then
        some { operator := op
               rhs := r
               operators := [("operator", some op), ("rhs", some r)]
               products := []
               estimator := none
               visualizer := none
               cache_region := none
               name := none
               linear := op.linear && (r.linear && true)
               solution_space := op.source
               parameter_type := buildParameterType [some op, some r] []
               parameter_space := none
               productAttrs := []
               normAttrs := [] }
      else none := rfl
  constructor
  · constructor
    · rintro ⟨d, hd⟩
      rw [hred] at hd
      by_cases hg : ((op.source == op.range) && (op.range == r.source)
          && (r.source == op.source) && (r.range == NumpyVectorSpace 1) && r.linear) = true
      · simp only [Bool.and_eq_true, beq_iff_eq] at hg
        exact ⟨hg.1.1.1.1, hg.1.1.1.2, hg.1.2, hg.2⟩
      · rw [if_neg hg] at hd
        exact absurd hd (by simp)
    · rintro ⟨h1, h2, h3, h4⟩
      rw [hred, if_pos (by
        simp only [Bool.and_eq_true, beq_iff_eq]
        exact ⟨⟨⟨⟨h1, h2⟩, (h1.trans h2).symm⟩, h3⟩, h4⟩)]
      exact ⟨_, rfl⟩
  · intro d hd
    rw [hred] at hd
    by_cases hg : ((op.source == op.range) && (op.range == r.source)
        && (r.source == op.source) && (r.range == NumpyVectorSpace 1) && r.linear) = true
    · rw [if_pos hg] at hd
      simp only [Option.some.injEq] at hd
      rw [← hd]
    · rw [if_neg hg] at hd
      exact absurd hd (by simp)

/-- Closed instantiation of `spec_C3`: a concrete valid `(operator, rhs)`
pair constructs successfully and `solution_space = operator.source`. -/
theorem spec_C3_witness :
    StationaryDiscretization.init (some exOp) (some exRhs)
        none none none none none none none = some exSDisc ∧
      exSDisc.solution_space = exOp.source :=
  ⟨rfl, (spec_C3 exOp exRhs).2 exSDisc rfl⟩

/-! ### Computation lemmas for the special-operator loop -/

theorem specialAssertOk_none (mem : Option (Option Op)) :
    specialAssertOk none mem = true := rfl

theorem specialAssertOk_some_self (k : Op) :
    specialAssertOk (some k) (some (some k)) = true := by
  simp [specialAssertOk]

theorem resolveSpecial_none_some (v : Option Op) :
    resolveSpecial none (some v) = v := rfl

theorem resolveSpecial_some (k : Op) (mem : Option (Option Op)) :
    resolveSpecial (some k) mem = some k := rfl

/-- The value of `StationaryDiscretization.init` once the result of the
special-operator loop is known. -/
theorem sInit_of_processSpecials (operator rhs : Option Op)
    (products : Option (List (String × Op)))
    (operators : Option (List (String × Option Op)))
    (parameter_space : Option ParameterSpace)
    (estimator : Option ErrEstimator) (visualizer : Option Visualizer)
    (cache_region : Option String) (name : Option String)
    (ops2 : List (String × Option Op)) (op r : Op)
    (hps : processSpecials stationaryClassAttrs (stationaryKwargs operator rhs)
      stationarySpecialOperators (operators.getD [])
      = some (ops2, [("operator", some op), ("rhs", some r)])) :
    StationaryDiscretization.init operator rhs products operators parameter_space
        estimator visualizer cache_region name
      = if (op.source == op.range) && (op.range == r.source)
          && (r.source == op.source) && (r.range == NumpyVectorSpace 1) && r.linear then
          some { operator := op
                 rhs := r
                 operators := ops2
                 products := products.getD []
                 estimator := estimator
                 visualizer := visualizer
                 cache_region := cache_region
                 name := name
                 linear := ops2.all (fun p => match p.2 with
                   | none => true
                   | some o => o.linear)
                 solution_space := op.source
                 parameter_type := buildParameterType [some op, some r] []
                 parameter_space := parameter_space
                 productAttrs := (products.getD []).map (fun kv => (kv.1 ++ "_product", kv.2))
                 normAttrs := (products.getD []).map (fun kv => kv.1 ++ "_norm") }
        else none := by
  unfold StationaryDiscretization.init baseInit
  rw [hps]
  rfl

/-- A second concrete functional (a distinct object with the same spaces). -/
def exRhs2 : Op :=
  { uid := 4
    source := exSpace
    range := NumpyVectorSpace 1
    linear := true
    parameter_type := []
    apply_inverse := fun v _ => Except.ok v
    as_source_array := fun _ => { space := exSpace, data := [[7, 8]] }
    as_range_array := fun _ => { space := NumpyVectorSpace 1, data := [[9]] } }

/-- The instance produced by `exSDisc.with_ (rhs := exRhs2)`. -/
def exSDiscRhs : StationaryDiscretization :=
  { operator := exOp
    rhs := exRhs2
    operators := [("operator", some exOp), ("rhs", some exRhs2)]
    products := []
    estimator := none
    visualizer := none
    cache_region := none
    name := none
    linear := true
    solution_space := exSpace
    parameter_type := []
    parameter_space := none
    productAttrs := []
    normAttrs := [] }

theorem getSAttr_eq_some (attrs : List (String × Option Op)) (sn : String) (o : Op)
    (h : getSAttr attrs sn = some o) : lookup attrs sn = some (some o) := by
  unfold getSAttr at h
  rcases hl : lookup attrs sn with _ | x
  · rw [hl] at h
    exact absurd h (by simp)
  · rw [hl] at h
    simp only [Option.getD_some] at h
    rw [h]

/-- Every successfully constructed `StationaryDiscretization` satisfies the
instance invariants: the operator dict holds the special attributes, the
derived fields are the stated functions of the stored data, and the
space/linearity asserts hold. -/
theorem sInit_inv (operator rhs : Option Op)
    (products : Option (List (String × Op)))
    (operators : Option (List (String × Option Op)))
    (parameter_space : Option ParameterSpace)
    (estimator : Option ErrEstimator) (visualizer : Option Visualizer)
    (cache_region : Option String) (name : Option String)
    (d : StationaryDiscretization)
    (h : StationaryDiscretization.init operator rhs products operators
      parameter_space estimator visualizer cache_region name = some d) :
    lookup d.operators "operator" = some (some d.operator) ∧
      lookup d.operators "rhs" = some (some d.rhs) ∧
      d.linear = d.operators.all (fun p => match p.2 with
        | none => true
        | some o => o.linear) ∧
      d.productAttrs = d.products.map (fun kv => (kv.1 ++ "_product", kv.2)) ∧
      d.normAttrs = d.products.map (fun kv => kv.1 ++ "_norm") ∧
      d.solution_space = d.operator.source ∧
      d.parameter_type = buildParameterType [some d.operator, some d.rhs] [] ∧
      ((d.operator.source == d.operator.range) && (d.operator.range == d.rhs.source)
        && (d.rhs.source == d.operator.source) && (d.rhs.range == NumpyVectorSpace 1)
        && d.rhs.linear) = true := by
  unfold StationaryDiscretization.init at h
  rcases hb : baseInit stationarySpecialOperators stationaryClassAttrs
      (stationaryKwargs operator rhs) operators products estimator visualizer
      cache_region name with _ | b
  · rw [hb] at h
    exact absurd h (by simp)
  · rw [hb] at h
    dsimp only at h
    rcases baseInit_some _ _ _ _ _ _ _ _ _ _ hb with
      ⟨hps, hlin, hprods, _, _, _, _, hpa, hna⟩
    rcases hopa : getSAttr b.specialAttrs "operator" with _ | op
    · rw [hopa] at h
      exact absurd h (by simp)
    · rcases hrha : getSAttr b.specialAttrs "rhs" with _ | r
      · rw [hopa, hrha] at h
        exact absurd h (by simp)
      · rw [hopa, hrha] at h
        dsimp only at h
        by_cases hg : ((op.source == op.range) && (op.range == r.source)
            && (r.source == op.source) && (r.range == NumpyVectorSpace 1)
            && r.linear) = true
        · rw [if_pos hg] at h
          simp only [Option.some.injEq] at h
          subst h
          have hmop := processSpecials_lookup_mem _ _ _ _ _ _ (by decide) hps
            "operator" (by decide)
          have hmrh := processSpecials_lookup_mem _ _ _ _ _ _ (by decide) hps
            "rhs" (by decide)
          have hra : resolveSpecial (stationaryKwargs operator rhs "operator")
              (lookup (operators.getD []) "operator") = some op :=
            Option.some.inj (hmop.2.symm.trans (getSAttr_eq_some _ _ _ hopa))
          have hrb : resolveSpecial (stationaryKwargs operator rhs "rhs")
              (lookup (operators.getD []) "rhs") = some r :=
            Option.some.inj (hmrh.2.symm.trans (getSAttr_eq_some _ _ _ hrha))
          refine ⟨?_, ?_, hlin, ?_, ?_, rfl, rfl, hg⟩
          · rw [hmop.1, hra]
          · rw [hmrh.1, hrb]
          · rw [hpa, hprods]
          · rw [hna, hprods]
        · rw [if_neg hg] at h
          exact absurd h (by simp)

/-- A `with_` call with no overrides on a valid stationary instance
reconstructs the instance unchanged. -/
theorem sWith_id (d : StationaryDiscretization)
    (hop : lookup d.operators "operator" = some (some d.operator))
    (hrhs : lookup d.operators "rhs" = some (some d.rhs))
    (hlin : d.linear = d.operators.all (fun p => match p.2 with
      | none => true
      | some o => o.linear))
    (hpa : d.productAttrs = d.products.map (fun kv => (kv.1 ++ "_product", kv.2)))
    (hna : d.normAttrs = d.products.map (fun kv => kv.1 ++ "_norm"))
    (hss : d.solution_space = d.operator.source)
    (hpt : d.parameter_type = buildParameterType [some d.operator, some d.rhs] [])
    (hg : ((d.operator.source == d.operator.range) && (d.operator.range == d.rhs.source)
      && (d.rhs.source == d.operator.source) && (d.rhs.range == NumpyVectorSpace 1)
      && d.rhs.linear) = true) :
    d.with_ {} = some d := by
  have hred : d.with_ {} = StationaryDiscretization.init none none (some d.products)
      (some (dictUpdate (dictUpdate d.operators "operator" (some d.operator))
        "rhs" (some d.rhs)))
      d.parameter_space d.estimator d.visualizer d.cache_region d.name := rfl
  rw [hred, dictUpdate_of_lookup_eq _ _ _ hop, dictUpdate_of_lookup_eq _ _ _ hrhs]
  have hkw : ∀ sn ∈ stationarySpecialOperators, stationaryKwargs none none sn = none := by
    intro sn _
    simp [stationaryKwargs]
  have hcls : ∀ sn ∈ stationarySpecialOperators, sn ∉ stationaryClassAttrs := by decide
  have hmem : ∀ sn ∈ stationarySpecialOperators, (lookup d.operators sn).isSome = true := by
    intro sn hsn
    cases hsn with
    | head => rw [hop]; rfl
    | tail _ h2 =>
      cases h2 with
      | head => rw [hrhs]; rfl
      | tail _ h3 => cases h3
  have hps : processSpecials stationaryClassAttrs (stationaryKwargs none none)
      stationarySpecialOperators d.operators
      = some (d.operators, [("operator", some d.operator), ("rhs", some d.rhs)]) := by
    rw [processSpecials_id stationaryClassAttrs (stationaryKwargs none none)
      stationarySpecialOperators d.operators hkw hcls hmem]
    unfold stationarySpecialOperators
    simp only [List.map_cons, List.map_nil, hop, hrhs, Option.getD_some]
  rw [sInit_of_processSpecials _ _ _ _ _ _ _ _ _ _ _ _ hps, if_pos hg]
  simp only [Option.getD_some]
  rw [← hlin, ← hss, ← hpt, ← hpa, ← hna]

/-- The value of `InstationaryDiscretization.init` once the result of the
special-operator loop is known. -/
theorem iInit_of_processSpecials (T : Int) (initial_data : Option InitialDataArg)
    (operator rhs mass : Option Op)
    (time_stepper : Option TimeStepper) (num_values : Option Nat)
    (products : Option (List (String × Op)))
    (operators : Option (List (String × Option Op)))
    (parameter_space : Option ParameterSpace)
    (estimator : Option ErrEstimator) (visualizer : Option Visualizer)
    (cache_region : Option String) (name : Option String)
    (ops2 : List (String × Option Op)) (op idata : Op) (rhsA massA : Option Op)
    (hps : processSpecials instationaryClassAttrs
      (instationaryKwargs operator mass rhs (wrapInitialData initial_data))
      instationarySpecialOperators (operators.getD [])
      = some (ops2, [("operator", some op), ("mass", massA), ("rhs", rhsA),
          ("initial_data", some idata)])) :
    InstationaryDiscretization.init T initial_data operator rhs mass time_stepper
        num_values products operators parameter_space estimator visualizer
        cache_region name
      = match time_stepper with
        | none => none
        | some ts =>
          if (idata.source == NumpyVectorSpace 1) && (op.source == op.range)
              && (op.range == idata.range)
              && rhsOkCheck op rhsA && massOkCheck op massA then
            some { T := T
                   initial_data := idata
                   operator := op
                   rhs := rhsA
                   mass := massA
                   time_stepper := ts
                   num_values := num_values
                   operators := ops2
                   products := products.getD []
                   estimator := estimator
                   visualizer := visualizer
                   cache_region := cache_region
                   name := name
                   linear := ops2.all (fun p => match p.2 with
                     | none => true
                     | some o => o.linear)
                   solution_space := op.source
                   parameter_type := buildParameterType
                     [some idata, some op, rhsA, massA] ["_t"]
                   parameter_space := parameter_space
                   productAttrs := (products.getD []).map
                     (fun kv => (kv.1 ++ "_product", kv.2))
                   normAttrs := (products.getD []).map (fun kv => kv.1 ++ "_norm") }
          else none := by
  unfold InstationaryDiscretization.init baseInit
  rw [hps]
  rfl

/-- Every successfully constructed `InstationaryDiscretization` satisfies the
instance invariants. -/
theorem iInit_inv (T : Int) (initial_data : Option InitialDataArg)
    (operator rhs mass : Option Op)
    (time_stepper : Option TimeStepper) (num_values : Option Nat)
    (products : Option (List (String × Op)))
    (operators : Option (List (String × Option Op)))
    (parameter_space : Option ParameterSpace)
    (estimator : Option ErrEstimator) (visualizer : Option Visualizer)
    (cache_region : Option String) (name : Option String)
    (d : InstationaryDiscretization)
    (h : InstationaryDiscretization.init T initial_data operator rhs mass
      time_stepper num_values products operators parameter_space estimator
      visualizer cache_region name = some d) :
    lookup d.operators "operator" = some (some d.operator) ∧
      lookup d.operators "mass" = some d.mass ∧
      lookup d.operators "rhs" = some d.rhs ∧
      lookup d.operators "initial_data" = some (some d.initial_data) ∧
      d.linear = d.operators.all (fun p => match p.2 with
        | none => true
        | some o => o.linear) ∧
      d.productAttrs = d.products.map (fun kv => (kv.1 ++ "_product", kv.2)) ∧
      d.normAttrs = d.products.map (fun kv => kv.1 ++ "_norm") ∧
      d.solution_space = d.operator.source ∧
      d.parameter_type = buildParameterType
        [some d.initial_data, some d.operator, d.rhs, d.mass] ["_t"] ∧
      ((d.initial_data.source == NumpyVectorSpace 1)
        && (d.operator.source == d.operator.range)
        && (d.operator.range == d.initial_data.range)
        && rhsOkCheck d.operator d.rhs && massOkCheck d.operator d.mass) = true := by
  unfold InstationaryDiscretization.init at h
  rcases hb : baseInit instationarySpecialOperators instationaryClassAttrs
      (instationaryKwargs operator mass rhs (wrapInitialData initial_data))
      operators products estimator visualizer cache_region name with _ | b
  · rw [hb] at h
    exact absurd h (by simp)
  · rw [hb] at h
    dsimp only at h
    rcases baseInit_some _ _ _ _ _ _ _ _ _ _ hb with
      ⟨hps, hlin, hprods, _, _, _, _, hpa, hna⟩
    rcases hopa : getSAttr b.specialAttrs "operator" with _ | op
    · rw [hopa] at h
      exact absurd h (by simp)
    · rcases hida : getSAttr b.specialAttrs "initial_data" with _ | idata
      · rw [hopa, hida] at h
        exact absurd h (by simp)
      · rw [hopa, hida] at h
        dsimp only at h
        rcases time_stepper with _ | ts
        · exact absurd h (by simp)
        · dsimp only at h
          by_cases hg : ((idata.source == NumpyVectorSpace 1)
              && (op.source == op.range) && (op.range == idata.range)
              && rhsOkCheck op (getSAttr b.specialAttrs "rhs")
              && massOkCheck op (getSAttr b.specialAttrs "mass")) = true
          · rw [if_pos hg] at h
            simp only [Option.some.injEq] at h
            subst h
            have hmop := processSpecials_lookup_mem _ _ _ _ _ _ (by decide) hps
              "operator" (by decide)
            have hmma := processSpecials_lookup_mem _ _ _ _ _ _ (by decide) hps
              "mass" (by decide)
            have hmrh := processSpecials_lookup_mem _ _ _ _ _ _ (by decide) hps
              "rhs" (by decide)
            have hmid := processSpecials_lookup_mem _ _ _ _ _ _ (by decide) hps
              "initial_data" (by decide)
            have hresop : resolveSpecial
                (instationaryKwargs operator mass rhs (wrapInitialData initial_data) "operator")
                (lookup (operators.getD []) "operator") = some op :=
              Option.some.inj (hmop.2.symm.trans (getSAttr_eq_some _ _ _ hopa))
            have hresid : resolveSpecial
                (instationaryKwargs operator mass rhs (wrapInitialData initial_data) "initial_data")
                (lookup (operators.getD []) "initial_data") = some idata :=
              Option.some.inj (hmid.2.symm.trans (getSAttr_eq_some _ _ _ hida))
            have hgema : getSAttr b.specialAttrs "mass" = resolveSpecial
                (instationaryKwargs operator mass rhs (wrapInitialData initial_data) "mass")
                (lookup (operators.getD []) "mass") := by
              unfold getSAttr
              rw [hmma.2]
              rfl
            have hgerh : getSAttr b.specialAttrs "rhs" = resolveSpecial
                (instationaryKwargs operator mass rhs (wrapInitialData initial_data) "rhs")
                (lookup (operators.getD []) "rhs") := by
              unfold getSAttr
              rw [hmrh.2]
              rfl
            refine ⟨?_, ?_, ?_, ?_, hlin, ?_, ?_, rfl, rfl, hg⟩
            · rw [hmop.1, hresop]
            · rw [hmma.1, hgema]
            · rw [hmrh.1, hgerh]
            · rw [hmid.1, hresid]
            · rw [hpa, hprods]
            · rw [hna, hprods]
          · rw [if_neg hg] at h
            exact absurd h (by simp)

/-- Reconstruction core of `InstationaryDiscretization.with_`: on a valid
instance, re-invoking the constructor from current attribute values (with
the special keyword slots cleared and any time-stepper `ts2`) rebuilds the
instance, changing only the time-stepper. -/
theorem iWith_core (d : InstationaryDiscretization) (ts2 : TimeStepper)
    (h1 : lookup d.operators "operator" = some (some d.operator))
    (h2 : lookup d.operators "mass" = some d.mass)
    (h3 : lookup d.operators "rhs" = some d.rhs)
    (h4 : lookup d.operators "initial_data" = some (some d.initial_data))
    (h5 : d.linear = d.operators.all (fun p => match p.2 with
      | none => true
      | some o => o.linear))
    (h6 : d.productAttrs = d.products.map (fun kv => (kv.1 ++ "_product", kv.2)))
    (h7 : d.normAttrs = d.products.map (fun kv => kv.1 ++ "_norm"))
    (h8 : d.solution_space = d.operator.source)
    (h9 : d.parameter_type = buildParameterType
      [some d.initial_data, some d.operator, d.rhs, d.mass] ["_t"])
    (h10 : ((d.initial_data.source == NumpyVectorSpace 1)
      && (d.operator.source == d.operator.range)
      && (d.operator.range == d.initial_data.range)
      && rhsOkCheck d.operator d.rhs && massOkCheck d.operator d.mass) = true) :
    InstationaryDiscretization.init d.T none none none none (some ts2) d.num_values
      (some d.products)
      (some (dictUpdate (dictUpdate (dictUpdate (dictUpdate d.operators
        "operator" (some d.operator)) "mass" d.mass) "rhs" d.rhs)
        "initial_data" (some d.initial_data)))
      d.parameter_space d.estimator d.visualizer d.cache_region d.name
    = some { d with time_stepper := ts2 } := by
  rw [dictUpdate_of_lookup_eq _ _ _ h1, dictUpdate_of_lookup_eq _ _ _ h2,
    dictUpdate_of_lookup_eq _ _ _ h3, dictUpdate_of_lookup_eq _ _ _ h4]
  have hkw : ∀ sn ∈ instationarySpecialOperators,
      instationaryKwargs none none none (wrapInitialData none) sn = none := by
    intro sn _
    simp [instationaryKwargs, wrapInitialData]
  have hcls : ∀ sn ∈ instationarySpecialOperators,
      sn ∉ instationaryClassAttrs := by decide
  have hmem : ∀ sn ∈ instationarySpecialOperators,
      (lookup d.operators sn).isSome = true := by
    intro sn hsn
    cases hsn with
    | head => rw [h1]; rfl
    | tail _ ha =>
      cases ha with
      | head => rw [h2]; rfl
      | tail _ hb =>
        cases hb with
        | head => rw [h3]; rfl
        | tail _ hc =>
          cases hc with
          | head => rw [h4]; rfl
          | tail _ hd2 => cases hd2
  have hps : processSpecials instationaryClassAttrs
      (instationaryKwargs none none none (wrapInitialData none))
      instationarySpecialOperators d.operators
      = some (d.operators, [("operator", some d.operator), ("mass", d.mass),
          ("rhs", d.rhs), ("initial_data", some d.initial_data)]) := by
    rw [processSpecials_id _ _ _ _ hkw hcls hmem]
    unfold instationarySpecialOperators
    simp only [List.map_cons, List.map_nil, h1, h2, h3, h4, Option.getD_some]
  rw [iInit_of_processSpecials _ _ _ _ _ _ _ _ _ _ _ _ _ _ _ _ _ _ _ hps]
  dsimp only
  rw [if_pos h10]
  simp only [Option.getD_some]
  rw [← h5, ← h8, ← h9, ← h6, ← h7]

/-! ### Claims C8 and C7: `with_` reconfiguration -/

/-- C8: on every discretization (stationary or instationary) obtained from a
successful construction, `with_()` with no overrides returns an instance
equal to the original — hence with the same operator dict, special-operator
attributes, products, estimator, visualizer, `linear` flag, and the same
`_solve` result for every parameter. -/
theorem spec_C8 :
    (∀ (operator rhs : Option Op) (products : Option (List (String × Op)))
        (operators : Option (List (String × Option Op)))
        (parameter_space : Option ParameterSpace) (estimator : Option ErrEstimator)
        (visualizer : Option Visualizer) (cache_region name : Option String)
        (d : StationaryDiscretization),
      StationaryDiscretization.init operator rhs products operators parameter_space
        estimator visualizer cache_region name = some d →
      d.with_ {} = some d) ∧
    (∀ (T : Int) (initial_data : Option InitialDataArg) (operator rhs mass : Option Op)
        (time_stepper : Option TimeStepper) (num_values : Option Nat)
        (products : Option (List (String × Op)))
        (operators : Option (List (String × Option Op)))
        (parameter_space : Option ParameterSpace) (estimator : Option ErrEstimator)
        (visualizer : Option Visualizer) (cache_region name : Option String)
        (d : InstationaryDiscretization),
      InstationaryDiscretization.init T initial_data operator rhs mass time_stepper
        num_values products operators parameter_space estimator visualizer
        cache_region name = some d →
      d.with_ {} = some d) := by
  constructor
  · intro operator rhs products operators parameter_space estimator visualizer
      cache_region name d h
    obtain ⟨hop, hrhs, hlin, hpa, hna, hss, hpt, hg⟩ :=
      sInit_inv _ _ _ _ _ _ _ _ _ _ h
    exact sWith_id d hop hrhs hlin hpa hna hss hpt hg
  · intro T initial_data operator rhs mass time_stepper num_values products
      operators parameter_space estimator visualizer cache_region name d h
    obtain ⟨h1, h2, h3, h4, h5, h6, h7, h8, h9, h10⟩ :=
      iInit_inv _ _ _ _ _ _ _ _ _ _ _ _ _ _ _ h
    have hred : d.with_ {} = InstationaryDiscretization.init d.T none none none none
        (some d.time_stepper) d.num_values (some d.products)
        (some (dictUpdate (dictUpdate (dictUpdate (dictUpdate d.operators
          "operator" (some d.operator)) "mass" d.mass) "rhs" d.rhs)
          "initial_data" (some d.initial_data)))
        d.parameter_space d.estimator d.visualizer d.cache_region d.name := rfl
    rw [hred, iWith_core d d.time_stepper h1 h2 h3 h4 h5 h6 h7 h8 h9 h10]

/-- Closed instantiation of `spec_C8` on both concrete discretizations. -/
theorem spec_C8_witness :
    StationaryDiscretization.init (some exOp) (some exRhs) none none none
        none none none none = some exSDisc ∧
      exSDisc.with_ {} = some exSDisc ∧
      InstationaryDiscretization.init 1 (some (InitialDataArg.op exInit)) (some exOp)
        none none (some exTS) none none none none none none none none
        = some exIDisc ∧
      exIDisc.with_ {} = some exIDisc :=
  ⟨rfl,
   spec_C8.1 (some exOp) (some exRhs) none none none none none none none exSDisc rfl,
   rfl,
   spec_C8.2 1 (some (InitialDataArg.op exInit)) (some exOp) none none (some exTS)
     none none none none none none none none exIDisc rfl⟩

/-- C7: on any `InstationaryDiscretization`, a `with_` call supplying both
`time_stepper` and `time_stepper_nt` fails (configuration error); on a
constructed instance whose time-stepper exposes `nt`, a call supplying only
`time_stepper_nt = v` succeeds and replaces the time-stepper with
`time_stepper.with_(nt=v)`, leaving everything else unchanged. -/
theorem spec_C7 :
    (∀ (d : InstationaryDiscretization) (kw : IWithArgs) (ts' : TimeStepper) (v : Nat),
      kw.time_stepper = some ts' → kw.time_stepper_nt = some v →
      d.with_ kw = none) ∧
    (∀ (T : Int) (initial_data : Option InitialDataArg) (operator rhs mass : Option Op)
        (time_stepper : Option TimeStepper) (num_values : Option Nat)
        (products : Option (List (String × Op)))
        (operators : Option (List (String × Option Op)))
        (parameter_space : Option ParameterSpace) (estimator : Option ErrEstimator)
        (visualizer : Option Visualizer) (cache_region name : Option String)
        (d : InstationaryDiscretization) (v : Nat),
      InstationaryDiscretization.init T initial_data operator rhs mass time_stepper
        num_values products operators parameter_space estimator visualizer
        cache_region name = some d →
      d.time_stepper.nt.isSome = true →
      d.with_ { time_stepper_nt := some v }
        = some { d with time_stepper := d.time_stepper.with_nt v }) := by
  constructor
  · intro d kw ts' v hts hnt
    unfold InstationaryDiscretization.with_
    rw [hts, hnt]
    rcases hn : d.time_stepper.nt with _ | n
    · simp
    · simp
  · intro T initial_data operator rhs mass time_stepper num_values products
      operators parameter_space estimator visualizer cache_region name d v h hnt
    obtain ⟨h1, h2, h3, h4, h5, h6, h7, h8, h9, h10⟩ :=
      iInit_inv _ _ _ _ _ _ _ _ _ _ _ _ _ _ _ h
    obtain ⟨n, hn⟩ := Option.isSome_iff_exists.1 hnt
    have hred : d.with_ { time_stepper_nt := some v }
        = InstationaryDiscretization.init d.T none none none none
          (some (d.time_stepper.with_nt v)) d.num_values (some d.products)
          (some (dictUpdate (dictUpdate (dictUpdate (dictUpdate d.operators
            "operator" (some d.operator)) "mass" d.mass) "rhs" d.rhs)
            "initial_data" (some d.initial_data)))
          d.parameter_space d.estimator d.visualizer d.cache_region d.name := by
      unfold InstationaryDiscretization.with_
      rw [hn]
      rfl
    rw [hred, iWith_core d (d.time_stepper.with_nt v) h1 h2 h3 h4 h5 h6 h7 h8 h9 h10]

/-- Closed instantiation of `spec_C7`: supplying both arguments fails on the
concrete instationary discretization; supplying only `time_stepper_nt = 5`
replaces its time-stepper by the `nt`-reconfigured one. -/
theorem spec_C7_witness :
    exIDisc.with_ { time_stepper := some exTS, time_stepper_nt := some 5 } = none ∧
      exIDisc.with_ { time_stepper_nt := some 5 }
        = some { exIDisc with time_stepper := exIDisc.time_stepper.with_nt 5 } :=
  ⟨spec_C7.1 exIDisc { time_stepper := some exTS, time_stepper_nt := some 5 }
     exTS 5 rfl rfl,
   spec_C7.2 1 (some (InitialDataArg.op exInit)) (some exOp) none none (some exTS)
     none none none none none none none none exIDisc 5 rfl rfl⟩

/-! ### Claim C4: overriding `rhs` via `with_`, for both discretization classes -/

/-- C4: on any discretization — stationary or instationary — satisfying the
special-operator invariants (the operator dict holds the current special
attributes, as every constructed instance does), a `with_` call that
supplies `rhs = new_rhs` (and overrides no special operator or the operator
dict itself) yields — whenever it returns an instance — an instance whose
operator dict maps `rhs` to `new_rhs`, whose `rhs` attribute is `new_rhs`,
and whose every other operator-dict entry is unchanged. -/
theorem spec_C4 :
    (∀ (d : StationaryDiscretization) (new_rhs : Op) (kw : SWithArgs),
      kw.rhs = some new_rhs → kw.operator = none → kw.operators = none →
      lookup d.operators "operator" = some (some d.operator) →
      ∀ d' : StationaryDiscretization, d.with_ kw = some d' →
      lookup d'.operators "rhs" = some (some new_rhs) ∧
        d'.rhs = new_rhs ∧
        ∀ k, k ≠ "rhs" → lookup d'.operators k = lookup d.operators k) ∧
    (∀ (d : InstationaryDiscretization) (new_rhs : Op) (kw : IWithArgs),
      kw.rhs = some new_rhs → kw.operator = none → kw.mass = none →
      kw.initial_data = none → kw.operators = none → kw.time_stepper_nt = none →
      lookup d.operators "operator" = some (some d.operator) →
      lookup d.operators "mass" = some d.mass →
      lookup d.operators "initial_data" = some (some d.initial_data) →
      ∀ d' : InstationaryDiscretization, d.with_ kw = some d' →
      lookup d'.operators "rhs" = some (some new_rhs) ∧
        d'.rhs = some new_rhs ∧
        ∀ k, k ≠ "rhs" → lookup d'.operators k = lookup d.operators k) := by
  constructor
  · intro d new_rhs kw hkw1 hkw2 hkw3 hop d' h
    unfold StationaryDiscretization.with_ at h
    rw [hkw1, hkw2, hkw3] at h
    simp only [Option.getD_none, Option.getD_some] at h
    rw [dictUpdate_of_lookup_eq d.operators "operator" (some d.operator) hop] at h
    have hMop : lookup (dictUpdate d.operators "rhs" (some new_rhs)) "operator"
        = some (some d.operator) := by
      rw [lookup_dictUpdate_ne _ _ _ _ (by decide)]
      exact hop
    have hMrhs : lookup (dictUpdate d.operators "rhs" (some new_rhs)) "rhs"
        = some (some new_rhs) := lookup_dictUpdate_self _ _ _
    have hps : processSpecials stationaryClassAttrs
        (stationaryKwargs none (some new_rhs)) stationarySpecialOperators
        (dictUpdate d.operators "rhs" (some new_rhs))
        = some (dictUpdate d.operators "rhs" (some new_rhs),
            [("operator", some d.operator), ("rhs", some new_rhs)]) := by
      unfold stationarySpecialOperators
      rw [processSpecials_cons,
        if_neg (show ("operator" : String) ∉ stationaryClassAttrs by decide),
        stationaryKwargs_operator, hMop, specialAssertOk_none, if_pos rfl,
        resolveSpecial_none_some,
        dictUpdate_of_lookup_eq _ _ _ hMop,
        processSpecials_cons,
        if_neg (show ("rhs" : String) ∉ stationaryClassAttrs by decide),
        stationaryKwargs_rhs, hMrhs, specialAssertOk_some_self, if_pos rfl,
        resolveSpecial_some,
        dictUpdate_of_lookup_eq _ _ _ hMrhs,
        processSpecials_nil]
    rw [sInit_of_processSpecials _ _ _ _ _ _ _ _ _ _ _ _ hps] at h
    by_cases hg : ((d.operator.source == d.operator.range)
        && (d.operator.range == new_rhs.source) && (new_rhs.source == d.operator.source)
        && (new_rhs.range == NumpyVectorSpace 1) && new_rhs.linear) = true
    · rw [if_pos hg] at h
      simp only [Option.some.injEq] at h
      subst h
      refine ⟨hMrhs, rfl, ?_⟩
      intro k hk
      exact lookup_dictUpdate_ne _ _ _ _ hk
    · rw [if_neg hg] at h
      exact absurd h (by simp)
  · intro d new_rhs kw hkw1 hkw2 hkw3 hkw4 hkw5 hkw6 hop hmass hid d' h
    have hred : d.with_ kw = InstationaryDiscretization.init (kw.T.getD d.T)
        none none (some new_rhs) none
        (some (kw.time_stepper.getD d.time_stepper)) (kw.num_values.getD d.num_values)
        (some (kw.products.getD d.products))
        (some (dictUpdate (dictUpdate (dictUpdate (dictUpdate d.operators
          "operator" (some d.operator)) "mass" d.mass) "rhs" (some new_rhs))
          "initial_data" (some d.initial_data)))
        (kw.parameter_space.getD d.parameter_space)
        (kw.estimator.getD d.estimator) (kw.visualizer.getD d.visualizer)
        (kw.cache_region.getD d.cache_region) (kw.name.getD d.name) := by
      unfold InstationaryDiscretization.with_
      rw [hkw1, hkw2, hkw3, hkw4, hkw5, hkw6]
      rfl
    rw [hred] at h
    rw [dictUpdate_of_lookup_eq _ _ _ hop, dictUpdate_of_lookup_eq _ _ _ hmass] at h
    have hMid : lookup (dictUpdate d.operators "rhs" (some new_rhs)) "initial_data"
        = some (some d.initial_data) := by
      rw [lookup_dictUpdate_ne _ _ _ _ (by decide)]
      exact hid
    rw [dictUpdate_of_lookup_eq _ _ _ hMid] at h
    have hMop : lookup (dictUpdate d.operators "rhs" (some new_rhs)) "operator"
        = some (some d.operator) := by
      rw [lookup_dictUpdate_ne _ _ _ _ (by decide)]
      exact hop
    have hMmass : lookup (dictUpdate d.operators "rhs" (some new_rhs)) "mass"
        = some d.mass := by
      rw [lookup_dictUpdate_ne _ _ _ _ (by decide)]
      exact hmass
    have hMrhs : lookup (dictUpdate d.operators "rhs" (some new_rhs)) "rhs"
        = some (some new_rhs) := lookup_dictUpdate_self _ _ _
    have hps : processSpecials instationaryClassAttrs
        (instationaryKwargs none none (some new_rhs) (wrapInitialData none))
        instationarySpecialOperators
        (dictUpdate d.operators "rhs" (some new_rhs))
        = some (dictUpdate d.operators "rhs" (some new_rhs),
            [("operator", some d.operator), ("mass", d.mass),
              ("rhs", some new_rhs), ("initial_data", some d.initial_data)]) := by
      unfold instationarySpecialOperators
      rw [processSpecials_cons,
        if_neg (show ("operator" : String) ∉ instationaryClassAttrs by decide),
        instationaryKwargs_operator, hMop, specialAssertOk_none, if_pos rfl,
        resolveSpecial_none_some,
        dictUpdate_of_lookup_eq _ _ _ hMop,
        processSpecials_cons,
        if_neg (show ("mass" : String) ∉ instationaryClassAttrs by decide),
        instationaryKwargs_mass, hMmass, specialAssertOk_none, if_pos rfl,
        resolveSpecial_none_some,
        dictUpdate_of_lookup_eq _ _ _ hMmass,
        processSpecials_cons,
        if_neg (show ("rhs" : String) ∉ instationaryClassAttrs by decide),
        instationaryKwargs_rhs, hMrhs, specialAssertOk_some_self, if_pos rfl,
        resolveSpecial_some,
        dictUpdate_of_lookup_eq _ _ _ hMrhs,
        processSpecials_cons,
        if_neg (show ("initial_data" : String) ∉ instationaryClassAttrs by decide),
        instationaryKwargs_initial_data,
        show wrapInitialData none = (none : Option Op) from rfl,
        hMid, specialAssertOk_none, if_pos rfl,
        resolveSpecial_none_some,
        dictUpdate_of_lookup_eq _ _ _ hMid,
        processSpecials_nil]
    rw [iInit_of_processSpecials _ _ _ _ _ _ _ _ _ _ _ _ _ _ _ _ _ _ _ hps] at h
    dsimp only at h
    by_cases hg : ((d.initial_data.source == NumpyVectorSpace 1)
        && (d.operator.source == d.operator.range)
        && (d.operator.range == d.initial_data.range)
        && rhsOkCheck d.operator (some new_rhs)
        && massOkCheck d.operator d.mass) = true
    · rw [if_pos hg] at h
      simp only [Option.some.injEq] at h
      subst h
      refine ⟨hMrhs, rfl, ?_⟩
      intro k hk
      exact lookup_dictUpdate_ne _ _ _ _ hk
    · rw [if_neg hg] at h
      exact absurd h (by simp)

/-- The instance produced by `exIDisc.with_ (rhs := exRhs2)`. -/
def exIDiscRhs : InstationaryDiscretization :=
  { T := 1
    initial_data := exInit
    operator := exOp
    rhs := some exRhs2
    mass := none
    time_stepper := exTS
    num_values := none
    operators := [("operator", some exOp), ("mass", none), ("rhs", some exRhs2),
      ("initial_data", some exInit)]
    products := []
    estimator := none
    visualizer := none
    cache_region := none
    name := none
    linear := true
    solution_space := exSpace
    parameter_type := []
    parameter_space := none
    productAttrs := []
    normAttrs := [] }

/-- Closed instantiation of `spec_C4`: the `rhs` of a concrete stationary
and a concrete instationary discretization is replaced via `with_`. -/
theorem spec_C4_witness :
    exSDisc.with_ { rhs := some exRhs2 } = some exSDiscRhs ∧
      lookup exSDiscRhs.operators "rhs" = some (some exRhs2) ∧
      exSDiscRhs.rhs = exRhs2 ∧
      exIDisc.with_ { rhs := some exRhs2 } = some exIDiscRhs ∧
      lookup exIDiscRhs.operators "rhs" = some (some exRhs2) ∧
      exIDiscRhs.rhs = some exRhs2 :=
  ⟨rfl,
   (spec_C4.1 exSDisc exRhs2 { rhs := some exRhs2 } rfl rfl rfl rfl exSDiscRhs rfl).1,
   (spec_C4.1 exSDisc exRhs2 { rhs := some exRhs2 } rfl rfl rfl rfl exSDiscRhs rfl).2.1,
   rfl,
   (spec_C4.2 exIDisc exRhs2 { rhs := some exRhs2 } rfl rfl rfl rfl rfl rfl rfl rfl rfl
     exIDiscRhs rfl).1,
   (spec_C4.2 exIDisc exRhs2 { rhs := some exRhs2 } rfl rfl rfl rfl rfl rfl rfl rfl rfl
     exIDiscRhs rfl).2.1⟩
